import Mathlib

/-!
Verification development for the blind-chess console game (src/main.py).

The repository's own code is a thin orchestration layer (`Game`, `main`) on
top of an external rules library.  The rules/notation engine itself is not
part of the repository, so it is modelled here from the specification
(spec.md sections 4.1-4.5); every such definition carries a doc comment
starting with `Modelled from the spec:`.  All other definitions are direct
translations of src/main.py.
-/

namespace BlindChess

/-! ### Executable string primitives.

The model mirrors Python's `str.split(sep)`, `str.lower()` and prefix tests
with structurally recursive definitions over the character list, so that
every definition in this file evaluates inside the kernel. -/

/-- Split a character list on a separator character, keeping empty pieces —
the semantics of Python's `str.split(sep)` with an explicit separator. -/
def splitCharsOn (sep : Char) : List Char → List (List Char)
  | [] => [[]]
  | c :: rest =>
    match splitCharsOn sep rest with
    | [] => [[]]
    | piece :: pieces => if c = sep then [] :: piece :: pieces else (c :: piece) :: pieces

/-- Python's `s.split(sep)` for a one-character separator: `"".split(sep)`
is `[""]`, and empty pieces between consecutive separators are kept. -/
def pySplit (s : String) (sep : Char) : List String :=
  (splitCharsOn sep s.data).map String.mk

/-- ASCII lower-casing of one character, as Python's `str.lower()` and the
library's case-insensitive handling behave on the command alphabet. -/
def lowerChar (c : Char) : Char :=
  if 'A' ≤ c && c ≤ 'Z' then Char.ofNat (c.toNat + 32) else c

/-- Python's `s.lower()` restricted to ASCII case mapping. -/
def lowerStr (s : String) : String := String.mk (s.data.map lowerChar)

/-- ASCII upper-casing of one character. -/
def upperChar (c : Char) : Char :=
  if 'a' ≤ c && c ≤ 'z' then Char.ofNat (c.toNat - 32) else c

def isPrefixCharList : List Char → List Char → Bool
  | [], _ => true
  | _ :: _, [] => false
  | a :: as, b :: bs => a = b && isPrefixCharList as bs

/-- Whether `pre` is a prefix of `s`. -/
def strHasPre (pre s : String) : Bool := isPrefixCharList pre.data s.data

/-- Modelled from the spec: piece colors (spec section 3, Data Model). -/
inductive Color where
  | white
  | black
deriving DecidableEq, Repr

/-- Modelled from the spec: the opposing color. -/
def Color.other : Color → Color
  | .white => .black
  | .black => .white

/-- Modelled from the spec: piece kinds (spec section 3, Data Model). -/
inductive PieceKind where
  | pawn
  | knight
  | bishop
  | rook
  | queen
  | king
deriving DecidableEq, Repr

/-- Modelled from the spec: a piece is a (color, kind) pair. -/
structure Piece where
  color : Color
  kind : PieceKind
deriving DecidableEq, Repr

/-- Squares are numbered 0..63: square = rank * 8 + file, with file 0 = the
a-file and rank 0 = rank 1 (white's back rank). -/
def fileOf (sq : Nat) : Int := (sq % 8 : Nat)

def rankOf (sq : Nat) : Int := (sq / 8 : Nat)

/-- Build a square from integer file/rank coordinates, `none` off the board. -/
def mkSq (f r : Int) : Option Nat :=
  if 0 ≤ f ∧ f < 8 ∧ 0 ≤ r ∧ r < 8 then some (r.toNat * 8 + f.toNat) else none

/-- Shift a square by a (file, rank) delta, `none` when it leaves the board. -/
def shiftSq (sq : Nat) (df dr : Int) : Option Nat :=
  mkSq (fileOf sq + df) (rankOf sq + dr)

/-- Modelled from the spec: a Position snapshot (spec section 3): 8x8 grid,
side to move, four castling-right flags, optional en-passant target square,
halfmove clock and fullmove number. -/
structure Position where
  board : List (Option Piece)
  turn : Color
  castleWK : Bool
  castleWQ : Bool
  castleBK : Bool
  castleBQ : Bool
  ep : Option Nat
  halfmove : Nat
  fullmove : Nat
deriving DecidableEq, Repr

def pieceAt (p : Position) (sq : Nat) : Option Piece :=
  p.board.getD sq none

/-- Modelled from the spec: a Move value (spec section 3): from-square,
to-square, optional promotion piece kind. -/
structure Move where
  fromSq : Nat
  toSq : Nat
  promo : Option PieceKind
deriving DecidableEq, Repr

/-- Modelled from the spec: the repetition signature of a position — piece
placement, side to move, castling rights and en-passant target, excluding the
clocks (spec section 3, GameRecord). -/
structure Sig where
  board : List (Option Piece)
  turn : Color
  castleWK : Bool
  castleWQ : Bool
  castleBK : Bool
  castleBQ : Bool
  ep : Option Nat
deriving DecidableEq, Repr

def sigOf (p : Position) : Sig :=
  ⟨p.board, p.turn, p.castleWK, p.castleWQ, p.castleBK, p.castleBQ, p.ep⟩

/-! ### Board-description (FEN) parsing, modelled from spec section 4.4. -/

def isFileChar (c : Char) : Bool := 'a' ≤ c && c ≤ 'h'

def isRankChar (c : Char) : Bool := '1' ≤ c && c ≤ '8'

def fileIdx (c : Char) : Nat := c.toNat - 'a'.toNat

def rankIdx (c : Char) : Nat := c.toNat - '1'.toNat

def pieceOfChar : Char → Option Piece
  | 'P' => some ⟨.white, .pawn⟩
  | 'N' => some ⟨.white, .knight⟩
  | 'B' => some ⟨.white, .bishop⟩
  | 'R' => some ⟨.white, .rook⟩
  | 'Q' => some ⟨.white, .queen⟩
  | 'K' => some ⟨.white, .king⟩
  | 'p' => some ⟨.black, .pawn⟩
  | 'n' => some ⟨.black, .knight⟩
  | 'b' => some ⟨.black, .bishop⟩
  | 'r' => some ⟨.black, .rook⟩
  | 'q' => some ⟨.black, .queen⟩
  | 'k' => some ⟨.black, .king⟩
  | _ => none

/-- Expand one rank of the placement field (digits are runs of empties). -/
def expandRank : List Char → Option (List (Option Piece))
  | [] => some []
  | c :: rest =>
    if c.isDigit && '1' ≤ c && c ≤ '8' then
      (expandRank rest).map (fun r => List.replicate (c.toNat - '0'.toNat) none ++ r)
    else
      match pieceOfChar c with
      | some pc => (expandRank rest).map (fun r => some pc :: r)
      | none => none

/-- Parse the placement field: 8 slash-separated ranks, given from rank 8
down to rank 1; the resulting list is indexed by square number. -/
def parsePlacement (s : String) : Option (List (Option Piece)) :=
  let ranks := pySplit s '/'
  if ranks.length = 8 then
    let expanded := ranks.map (fun r => expandRank r.data)
    if expanded.all (fun o => match o with | some l => l.length = 8 | none => false) then
      some ((expanded.map (fun o => o.getD [])).reverse.flatten)
    else none
  else none

def parseTurnField : String → Option Color
  | "w" => some .white
  | "b" => some .black
  | _ => none

def parseCastleField (s : String) : Option (Bool × Bool × Bool × Bool) :=
  if s = "-" then some (false, false, false, false)
  else if s ≠ "" && s.data.all (fun c => c = 'K' || c = 'Q' || c = 'k' || c = 'q') then
    some (s.data.contains 'K', s.data.contains 'Q', s.data.contains 'k', s.data.contains 'q')
  else none

def parseSquareName (s : String) : Option Nat :=
  match s.data with
  | [f, r] => if isFileChar f && isRankChar r then some (rankIdx r * 8 + fileIdx f) else none
  | _ => none

def parseEpField (s : String) : Option (Option Nat) :=
  if s = "-" then some none
  else (parseSquareName s).map some

def parseNatField (s : String) : Option Nat :=
  if s ≠ "" && s.data.all Char.isDigit then
    some (s.data.foldl (fun acc c => acc * 10 + (c.toNat - '0'.toNat)) 0)
  else none

/-- Modelled from the spec: `initial(fenLike)` of PositionStore (spec
section 4.1) — parse a six-field board-description string, failing on
structurally invalid input (wrong field count, illegal piece letters,
out-of-range counters).  The external library's `chess.Board(fen)`
constructor, which src/main.py calls, is not part of the repository. -/
def fenParse (s : String) : Except String Position :=
  match pySplit s ' ' with
  | [pl, t, c, e, h, f] =>
    match parsePlacement pl, parseTurnField t, parseCastleField c,
          parseEpField e, parseNatField h, parseNatField f with
    | some board, some turn, some (wk, wq, bk, bq), some ep, some hm, some fm =>
      .ok ⟨board, turn, wk, wq, bk, bq, ep, hm, fm⟩
    | _, _, _, _, _, _ => .error "malformed board-description string"
  | _ => .error "malformed board-description string: wrong field count"

/-! ### Attack detection and move generation, modelled from spec section 4.2. -/

def knightDeltas : List (Int × Int) :=
  [(1, 2), (2, 1), (2, -1), (1, -2), (-1, -2), (-2, -1), (-2, 1), (-1, 2)]

def kingDeltas : List (Int × Int) :=
  [(1, 0), (1, 1), (0, 1), (-1, 1), (-1, 0), (-1, -1), (0, -1), (1, -1)]

def rookDirs : List (Int × Int) := [(1, 0), (-1, 0), (0, 1), (0, -1)]

def bishopDirs : List (Int × Int) := [(1, 1), (1, -1), (-1, 1), (-1, -1)]

/-- Squares along a ray from `sq` in direction `d`, up to and including the
first occupied square (ray-casting until blocked, spec section 4.2). -/
def rayFrom (p : Position) (sq : Nat) (d : Int × Int) : List Nat :=
  go 7 sq
where
  go : Nat → Nat → List Nat
    | 0, _ => []
    | n + 1, cur =>
      match shiftSq cur d.1 d.2 with
      | none => []
      | some t => if (pieceAt p t).isSome then [t] else t :: go n t

/-- Modelled from the spec: `isSquareAttacked(position, square, byColor)`
(spec section 4.2) — attack by sliding pieces (rays until blocked), knight
offsets, pawns (diagonal capture squares only), and the adjacent king. -/
def isSquareAttacked (p : Position) (sq : Nat) (byColor : Color) : Bool :=
  let jumper (ds : List (Int × Int)) (k : PieceKind) : Bool :=
    ds.any (fun d =>
      match shiftSq sq d.1 d.2 with
      | some t => pieceAt p t = some ⟨byColor, k⟩
      | none => false)
  let pawnDr : Int := match byColor with | .white => -1 | .black => 1
  let pawnHit : Bool :=
    [(-1 : Int), 1].any (fun df =>
      match shiftSq sq df pawnDr with
      | some t => pieceAt p t = some ⟨byColor, .pawn⟩
      | none => false)
  let slider (dirs : List (Int × Int)) (k : PieceKind) : Bool :=
    dirs.any (fun d =>
      match (rayFrom p sq d).getLast? with
      | some t => pieceAt p t = some ⟨byColor, k⟩ || pieceAt p t = some ⟨byColor, .queen⟩
      | none => false)
  jumper knightDeltas .knight || jumper kingDeltas .king || pawnHit ||
    slider rookDirs .rook || slider bishopDirs .bishop

def kingSquare (p : Position) (c : Color) : Option Nat :=
  p.board.findIdx? (fun o => o = some ⟨c, .king⟩)

/-- Modelled from the spec: the given color's king is attacked by the
opponent (check detection, spec section 4.2). -/
def colorInCheck (p : Position) (c : Color) : Bool :=
  match kingSquare p c with
  | some k => isSquareAttacked p k c.other
  | none => false

/-! ### Move application, modelled from spec section 4.1 (`apply`). -/

/-- Modelled from the spec: en-passant capture — a pawn moving diagonally
onto the en-passant target square. -/
def isEpCapture (p : Position) (m : Move) : Bool :=
  match pieceAt p m.fromSq with
  | some pc => pc.kind = .pawn && some m.toSq = p.ep && fileOf m.toSq ≠ fileOf m.fromSq
  | none => false

def isCapture (p : Position) (m : Move) : Bool :=
  (pieceAt p m.toSq).isSome || isEpCapture p m

/-- Modelled from the spec: `apply(position, move)` of PositionStore (spec
section 4.1) — moves the piece, clears the origin, resolves en-passant and
castling rook movement, updates castling-right flags, resets or increments
the halfmove clock, flips side to move and increments the fullmove number
after black's move.  Legality is not validated here. -/
def applyMove (p : Position) (m : Move) : Position :=
  let pc := (pieceAt p m.fromSq).getD ⟨p.turn, .pawn⟩
  let ep := isEpCapture p m
  let capture := isCapture p m
  let placed : Piece := match m.promo with
    | some k => ⟨pc.color, k⟩
    | none => pc
  let b1 := p.board.set m.fromSq none
  let b2 := b1.set m.toSq (some placed)
  let b3 :=
    if ep then
      b2.set ((rankOf m.fromSq).toNat * 8 + (fileOf m.toSq).toNat) none
    else b2
  let b4 :=
    if pc.kind = .king && (fileOf m.toSq - fileOf m.fromSq = 2 ∨
        fileOf m.fromSq - fileOf m.toSq = 2) then
      let r := (rankOf m.fromSq).toNat
      if fileOf m.toSq = 6 then
        (b3.set (r * 8 + 7) none).set (r * 8 + 5) (some ⟨pc.color, .rook⟩)
      else
        (b3.set (r * 8 + 0) none).set (r * 8 + 3) (some ⟨pc.color, .rook⟩)
    else b3
  let kingMoved (c : Color) : Bool := pc.kind = .king && pc.color = c
  let touches (sq : Nat) : Bool := m.fromSq = sq || m.toSq = sq
  let wk := p.castleWK && !(kingMoved .white) && !(touches 7)
  let wq := p.castleWQ && !(kingMoved .white) && !(touches 0)
  let bk := p.castleBK && !(kingMoved .black) && !(touches 63)
  let bq := p.castleBQ && !(kingMoved .black) && !(touches 56)
  let ep' :=
    if pc.kind = .pawn && (rankOf m.toSq - rankOf m.fromSq = 2 ∨
        rankOf m.fromSq - rankOf m.toSq = 2) then
      some (((rankOf m.fromSq + rankOf m.toSq) / 2).toNat * 8 + (fileOf m.fromSq).toNat)
    else none
  let hm := if capture || pc.kind = .pawn then 0 else p.halfmove + 1
  let fm := if p.turn = .black then p.fullmove + 1 else p.fullmove
  ⟨b4, p.turn.other, wk, wq, bk, bq, ep', hm, fm⟩

/-! ### Pseudo-legal and legal move enumeration (spec section 4.2). -/

/-- Moves for one target square of a non-pawn: allowed if empty or enemy. -/
def stepTargets (p : Position) (c : Color) (sq : Nat) (ds : List (Int × Int)) : List Nat :=
  ds.filterMap (fun d =>
    match shiftSq sq d.1 d.2 with
    | some t =>
      match pieceAt p t with
      | some q => if q.color = c then none else some t
      | none => some t
    | none => none)

def slideTargets (p : Position) (c : Color) (sq : Nat) (dirs : List (Int × Int)) : List Nat :=
  (dirs.map (fun d => rayFrom p sq d)).flatten.filter (fun t =>
    match pieceAt p t with
    | some q => q.color ≠ c
    | none => true)

/-- Pawn moves from one square: pushes, double pushes, diagonal captures,
en-passant captures, with promotions on the last rank (spec section 4.2). -/
def pawnMoves (p : Position) (c : Color) (sq : Nat) : List Move :=
  let dr : Int := match c with | .white => 1 | .black => -1
  let startRank : Int := match c with | .white => 1 | .black => 6
  let promoRank : Int := match c with | .white => 7 | .black => 0
  let promote (t : Nat) : List Move :=
    if rankOf t = promoRank then
      [⟨sq, t, some .queen⟩, ⟨sq, t, some .rook⟩, ⟨sq, t, some .bishop⟩, ⟨sq, t, some .knight⟩]
    else [⟨sq, t, none⟩]
  let push : List Move :=
    match shiftSq sq 0 dr with
    | some t1 =>
      if (pieceAt p t1).isNone then
        promote t1 ++
          (if rankOf sq = startRank then
            match shiftSq sq 0 (2 * dr) with
            | some t2 => if (pieceAt p t2).isNone then [⟨sq, t2, none⟩] else []
            | none => []
          else [])
      else []
    | none => []
  let caps : List Move :=
    ([(-1 : Int), 1].filterMap (fun df =>
      match shiftSq sq df dr with
      | some t =>
        match pieceAt p t with
        | some q => if q.color ≠ c then some t else none
        | none => if some t = p.ep then some t else none
      | none => none)).map promote |>.flatten
  push ++ caps

/-- Castling moves, generated with the spec's edge policy (spec section
4.2): the right must be held, king and rook on their home squares, the
squares between empty, and the king neither in check nor passing through or
landing on an attacked square. -/
def castleMoves (p : Position) (c : Color) : List Move :=
  let r : Nat := match c with | .white => 0 | .black => 7
  let kSq := r * 8 + 4
  let enemy := c.other
  let kingHome := pieceAt p kSq = some ⟨c, .king⟩
  let kRight := match c with | .white => p.castleWK | .black => p.castleBK
  let qRight := match c with | .white => p.castleWQ | .black => p.castleBQ
  let kside :=
    if kRight && kingHome && pieceAt p (r * 8 + 7) = some ⟨c, .rook⟩ &&
        (pieceAt p (r * 8 + 5)).isNone && (pieceAt p (r * 8 + 6)).isNone &&
        !isSquareAttacked p kSq enemy && !isSquareAttacked p (r * 8 + 5) enemy &&
        !isSquareAttacked p (r * 8 + 6) enemy then
      [Move.mk kSq (r * 8 + 6) none]
    else []
  let qside :=
    if qRight && kingHome && pieceAt p (r * 8 + 0) = some ⟨c, .rook⟩ &&
        (pieceAt p (r * 8 + 1)).isNone && (pieceAt p (r * 8 + 2)).isNone &&
        (pieceAt p (r * 8 + 3)).isNone &&
        !isSquareAttacked p kSq enemy && !isSquareAttacked p (r * 8 + 3) enemy &&
        !isSquareAttacked p (r * 8 + 2) enemy then
      [Move.mk kSq (r * 8 + 2) none]
    else []
  kside ++ qside

/-- Modelled from the spec: `pseudoLegalMoves(position)` (spec section 4.2)
— all moves obeying piece movement rules, without king-safety filtering. -/
def pseudoLegalMoves (p : Position) : List Move :=
  let c := p.turn
  let piecewise : List (List Move) :=
    (List.range 64).map (fun sq =>
      match pieceAt p sq with
      | some pc =>
        if pc.color = c then
          match pc.kind with
          | .pawn => pawnMoves p c sq
          | .knight => (stepTargets p c sq knightDeltas).map (fun t => ⟨sq, t, none⟩)
          | .king => (stepTargets p c sq kingDeltas).map (fun t => ⟨sq, t, none⟩)
          | .bishop => (slideTargets p c sq bishopDirs).map (fun t => ⟨sq, t, none⟩)
          | .rook => (slideTargets p c sq rookDirs).map (fun t => ⟨sq, t, none⟩)
          | .queen =>
            (slideTargets p c sq (rookDirs ++ bishopDirs)).map (fun t => ⟨sq, t, none⟩)
        else []
      | none => [])
  piecewise.flatten ++ castleMoves p c

/-- Modelled from the spec: `legalMoves(position)` (spec section 4.2) —
pseudo-legal moves whose application does not leave the mover's own king
attacked. -/
def legalMoves (p : Position) : List Move :=
  (pseudoLegalMoves p).filter (fun m => !colorInCheck (applyMove p m) p.turn)

/-- Whether the side to move has no legal move; checks check first so the
common case avoids enumerating moves. -/
def noLegalMoves (p : Position) : Bool :=
  (pseudoLegalMoves p).all (fun m => colorInCheck (applyMove p m) p.turn)

/-- Modelled from the spec: CHECKMATE predicate of GameStateEvaluator (spec
section 4.3) — no legal moves and the side to move's king is attacked. -/
def posIsCheckmate (p : Position) : Bool :=
  colorInCheck p p.turn && noLegalMoves p

/-- Modelled from the spec: STALEMATE predicate of GameStateEvaluator (spec
section 4.3) — no legal moves and the king is not attacked. -/
def posIsStalemate (p : Position) : Bool :=
  !colorInCheck p p.turn && noLegalMoves p

/-! ### Notation codec, modelled from spec section 4.4. -/

def fileChar (sq : Nat) : Char := Char.ofNat ('a'.toNat + (fileOf sq).toNat)

def rankChar (sq : Nat) : Char := Char.ofNat ('1'.toNat + (rankOf sq).toNat)

def squareName (sq : Nat) : String := String.mk [fileChar sq, rankChar sq]

def pieceLetter : PieceKind → String
  | .pawn => ""
  | .knight => "N"
  | .bishop => "B"
  | .rook => "R"
  | .queen => "Q"
  | .king => "K"

def kindAt (p : Position) (sq : Nat) : Option PieceKind :=
  (pieceAt p sq).map Piece.kind

/-- Modelled from the spec: short-algebraic serialization of a move (spec
section 4.4) — piece letter (omitted for pawns), minimal disambiguator (the
origin file, else the origin rank, else both), capture marker, promotion
suffix, and a check or checkmate suffix computed from the resulting
position. -/
def sanOfMove (p : Position) (m : Move) : String :=
  let p' := applyMove p m
  let suffix :=
    if posIsCheckmate p' then "#"
    else if colorInCheck p' p'.turn then "+" else ""
  let isKing := kindAt p m.fromSq = some PieceKind.king
  if isKing && fileOf m.toSq - fileOf m.fromSq = 2 then "O-O" ++ suffix
  else if isKing && fileOf m.fromSq - fileOf m.toSq = 2 then "O-O-O" ++ suffix
  else
    let kind := (kindAt p m.fromSq).getD .pawn
    let cap := isCapture p m
    let promoStr := match m.promo with
      | some k => "=" ++ pieceLetter k
      | none => ""
    let body :=
      match kind with
      | .pawn =>
        (if cap then String.mk [fileChar m.fromSq] ++ "x" else "") ++
          squareName m.toSq ++ promoStr
      | _ =>
        let others := (legalMoves p).filter (fun m2 =>
          m2.toSq = m.toSq && m2.fromSq ≠ m.fromSq && kindAt p m2.fromSq = some kind)
        let disamb :=
          if others.isEmpty then ""
          else if others.all (fun m2 => fileOf m2.fromSq ≠ fileOf m.fromSq) then
            String.mk [fileChar m.fromSq]
          else if others.all (fun m2 => rankOf m2.fromSq ≠ rankOf m.fromSq) then
            String.mk [rankChar m.fromSq]
          else squareName m.fromSq
        pieceLetter kind ++ disamb ++ (if cap then "x" else "") ++ squareName m.toSq
    body ++ suffix

/-- Modelled from the spec: the three distinct error kinds of short-algebraic
parsing (spec sections 4.4 and 7): a syntactically invalid string
(`MalformedMoveError`, the library's invalid-move kind), a well-formed
string matching no legal move (`IllegalMoveNotationError`, the library's
illegal-move kind), and a well-formed string matching several legal moves
(`AmbiguousMoveError`).  The spec surfaces them as distinct kinds. -/
inductive SanError where
  | malformed
  | illegal
  | ambiguous
deriving DecidableEq, Repr

/-- The syntactic shape of a non-castling SAN string: piece kind, optional
origin-file and origin-rank disambiguators, destination square, optional
promotion kind. -/
structure SanShape where
  kind : PieceKind
  dFile : Option Nat
  dRank : Option Nat
  dest : Nat
  promo : Option PieceKind
deriving DecidableEq, Repr

def promoKindOfChar : Char → Option PieceKind
  | 'N' => some .knight
  | 'B' => some .bishop
  | 'R' => some .rook
  | 'Q' => some .queen
  | _ => none

def pieceKindOfChar : Char → Option PieceKind
  | 'N' => some .knight
  | 'B' => some .bishop
  | 'R' => some .rook
  | 'Q' => some .queen
  | 'K' => some .king
  | _ => none

/-- Parse the purely syntactic part of a SAN string (castling excluded):
`[NBRQK]? [a-h]? [1-8]? x? [a-h][1-8] (=[NBRQ])?` with `+`/`#` already
stripped.  Returns `none` on malformed input. -/
def parseSanShape (cs : List Char) : Option SanShape :=
  let (kind, rest) :=
    match cs with
    | c :: rest' =>
      match pieceKindOfChar c with
      | some k => (k, rest')
      | none => (PieceKind.pawn, cs)
    | [] => (PieceKind.pawn, cs)
  let (promo, core) :=
    match rest.reverse with
    | pc :: '=' :: core' =>
      match promoKindOfChar pc with
      | some k => (some (some k), core'.reverse)
      | none => (none, rest)
    | _ => (some none, rest)
  match promo with
  | none => none
  | some promoKind =>
    match core.reverse with
    | r :: f :: pre =>
      if isFileChar f && isRankChar r then
        let dest := rankIdx r * 8 + fileIdx f
        let pre := pre.reverse
        let pre := match pre.reverse with
          | 'x' :: pre' => pre'.reverse
          | _ => pre
        match pre with
        | [] => some ⟨kind, none, none, dest, promoKind⟩
        | [c] =>
          if isFileChar c then some ⟨kind, some (fileIdx c), none, dest, promoKind⟩
          else if isRankChar c then some ⟨kind, none, some (rankIdx c), dest, promoKind⟩
          else none
        | [cf, cr] =>
          if isFileChar cf && isRankChar cr then
            some ⟨kind, some (fileIdx cf), some (rankIdx cr), dest, promoKind⟩
          else none
        | _ => none
      else none
    | _ => none

def stripCheckSuffix (cs : List Char) : List Char :=
  match cs.reverse with
  | '+' :: rest => rest.reverse
  | '#' :: rest => rest.reverse
  | _ => cs

/-- Modelled from the spec: parsing a short-algebraic string against the
legal moves of a position (spec section 4.4) — `AmbiguousMoveError` if more
than one legal move matches the piece/destination/disambiguator,
`IllegalMoveNotationError` if none match, `MalformedMoveError` when the
string is not syntactically a move. -/
def parseSan (p : Position) (s : String) : Except SanError Move :=
  let cs := stripCheckSuffix s.data
  let str := String.mk cs
  if str = "O-O" || str = "0-0" then
    let r : Nat := match p.turn with | .white => 0 | .black => 7
    let m : Move := ⟨r * 8 + 4, r * 8 + 6, none⟩
    if (legalMoves p).contains m then .ok m else .error .illegal
  else if str = "O-O-O" || str = "0-0-0" then
    let r : Nat := match p.turn with | .white => 0 | .black => 7
    let m : Move := ⟨r * 8 + 4, r * 8 + 2, none⟩
    if (legalMoves p).contains m then .ok m else .error .illegal
  else
    match parseSanShape cs with
    | none => .error .malformed
    | some shape =>
      let matches_ := (legalMoves p).filter (fun m =>
        kindAt p m.fromSq = some shape.kind && m.toSq = shape.dest &&
          m.promo = shape.promo &&
          (match shape.dFile with
            | some f => fileOf m.fromSq = (f : Int)
            | none => true) &&
          (match shape.dRank with
            | some r => rankOf m.fromSq = (r : Int)
            | none => true))
      match matches_ with
      | [] => .error .illegal
      | [m] => .ok m
      | _ => .error .ambiguous

/-- Modelled from the spec: coordinate-notation parsing (spec section 4.4)
— origin and destination squares plus an optional promotion letter; the
library's `parse_uci` also rejects moves that are not legal in the given
position. -/
def parseUci (p : Position) (s : String) : Except SanError Move :=
  let shape : Option Move :=
    match s.data with
    | [f1, r1, f2, r2] =>
      if isFileChar f1 && isRankChar r1 && isFileChar f2 && isRankChar r2 then
        some ⟨rankIdx r1 * 8 + fileIdx f1, rankIdx r2 * 8 + fileIdx f2, none⟩
      else none
    | [f1, r1, f2, r2, pk] =>
      match promoKindOfChar (upperChar pk) with
      | some k =>
        if isFileChar f1 && isRankChar r1 && isFileChar f2 && isRankChar r2 then
          some ⟨rankIdx r1 * 8 + fileIdx f1, rankIdx r2 * 8 + fileIdx f2, some k⟩
        else none
      | none => none
    | _ => none
  match shape with
  | none => .error .malformed
  | some m => if (legalMoves p).contains m then .ok m else .error .illegal

/-! ### The rules library's board object, modelled from the spec.

src/main.py drives an external board object (construction from a
board-description string, `push`, `san`, `parse_san`, `parse_uci`,
`move_stack`, `is_checkmate`, `is_stalemate`, `is_repetition`, `is_check`,
`has_castling_rights`).  It is modelled here as a current position plus the
move stack and the signature history rooted at the constructed position
(spec section 3, GameRecord). -/

structure Board where
  pos : Position
  moveStack : List Move
  sigs : List Sig
deriving DecidableEq, Repr

/-- Modelled from the spec: a fresh board from a parsed position; the
GameRecord starts with the root position's signature. -/
def Board.fromPosition (p : Position) : Board :=
  ⟨p, [], [sigOf p]⟩

/-- Modelled from the spec: board construction from a board-description
string, failing on structurally invalid input (spec section 4.1). -/
def Board.ofFen (s : String) : Except String Board :=
  (fenParse s).map Board.fromPosition

/-- Modelled from the spec: applying a move appends it to the move stack and
its resulting position's signature to the GameRecord (spec section 3). -/
def Board.push (b : Board) (m : Move) : Board :=
  let p' := applyMove b.pos m
  ⟨p', b.moveStack ++ [m], b.sigs ++ [sigOf p']⟩

def Board.is_checkmate (b : Board) : Bool := posIsCheckmate b.pos

def Board.is_stalemate (b : Board) : Bool := posIsStalemate b.pos

/-- Modelled from the spec: threefold repetition — the current position's
signature has occurred three or more times across the GameRecord (spec
section 4.3). -/
def Board.is_repetition (b : Board) : Bool :=
  3 ≤ b.sigs.count (sigOf b.pos)

def Board.is_check (b : Board) : Bool := colorInCheck b.pos b.pos.turn

/-- Modelled from the spec: whether the given color retains any castling
right (the `has_castling_rights` query used by the info command). -/
def Board.has_castling_rights (b : Board) (c : Color) : Bool :=
  match c with
  | .white => b.pos.castleWK || b.pos.castleWQ
  | .black => b.pos.castleBK || b.pos.castleBQ

def Board.san (b : Board) (m : Move) : String := sanOfMove b.pos m

def Board.parse_san (b : Board) (s : String) : Except SanError Move := parseSan b.pos s

def Board.parse_uci (b : Board) (s : String) : Except SanError Move := parseUci b.pos s

/-! ### Translation of src/main.py. -/

/-- The canonical initial board-description string
(src/main.py line 29, `START_POSITION`). -/
def START_POSITION : String := "rnbqkbnr/pppppppp/8/8/8/8/PPPPPPPP/RNBQKBNR w KQkq - 0 1"

/-- The `GameState` enum (src/main.py lines 51-58). -/
inductive GameState where
  | ONGOING
  | CHECKMATE
  | STALEMATE
  | REPETITION
  | RESIGNED
deriving DecidableEq, Repr

/-- The `Game` object state (src/main.py lines 97-115): the fields assigned in
`Game.__init__`.  The external engine handles (`stockfish`, `analyzer`) are
process resources with no game-visible state and are not part of the model. -/
structure Game where
  start_positions : String
  board : Board
  move_counter : Nat
  game_state : GameState
  latest_command : String
  opponents_turn : Bool
deriving DecidableEq, Repr

/-- Python's `int(...)` on the last whitespace field, restricted to the
digit strings that a board-description fullmove field can contain;
non-numeric input (such as the empty string) raises. -/
def pyIntOfString (s : String) : Except String Nat :=
  match parseNatField s with
  | some n => .ok n
  | none => .error "invalid literal for int()"

/-- Translation of `Game.__init__` (src/main.py lines 103-115), as a fallible constructor:
`start_positions` falls back to `START_POSITION` when `start_pos` is empty,
but the board is constructed from the raw `start_pos` string and the move
counter from `int(start_pos.split(" ")[-1])`, both of which raise on the
empty string.  The Stockfish/Analyzer construction on lines 109-111 touches
only external engine processes. -/
def Game.init (start_pos : String) : Except String Game := do
  let startPositions := if start_pos ≠ "" then start_pos else START_POSITION
  let board ← Board.ofFen start_pos
  let moveCounter ← pyIntOfString ((pySplit start_pos ' ').getLastD "")
  pure ⟨startPositions, board, moveCounter, GameState.ONGOING, "", false⟩

/-- Translation of `Game.get_game_as_pgn` (src/main.py lines 117-128): replay the recorded
moves on a fresh board built from `self.start_positions`, serializing each
move in algebraic notation against the position before pushing it, with a
move-number marker before every odd-numbered move.  Constructing the fresh
board can raise on a malformed stored string, hence the `Except`. -/
def pgnLoop (tempBoard : Board) (moveCount : Nat) (moveNo : Nat) : List Move → String
  | [] => ""
  | m :: rest =>
    let marker := if moveNo % 2 = 1 then toString moveCount ++ ". " else ""
    let moveCount' := if moveNo % 2 = 1 then moveCount + 1 else moveCount
    marker ++ tempBoard.san m ++ " " ++ pgnLoop (tempBoard.push m) moveCount' (moveNo + 1) rest

def Game.get_game_as_pgn (g : Game) : Except String String := do
  let tempBoard ← Board.ofFen g.start_positions
  pure (pgnLoop tempBoard 1 1 g.board.moveStack)

/-- Translation of `Game.update_game_state` (src/main.py lines 138-147): checkmate, else
stalemate, else repetition, else ongoing. -/
def Game.update_game_state (g : Game) : Game :=
  if g.board.is_checkmate then { g with game_state := GameState.CHECKMATE }
  else if g.board.is_stalemate then { g with game_state := GameState.STALEMATE }
  else if g.board.is_repetition then { g with game_state := GameState.REPETITION }
  else { g with game_state := GameState.ONGOING }

/-- The help text (src/main.py lines 36-48), kept abstract: its content is
irrelevant to every claim. -/
def HELP_MESSAGE : String := "help text"

/-- Translation of `Game.do_command` (src/main.py lines 149-177).  Returns the `True`/
`False` handled flag, the lines printed, and the updated game.  The board
visual and the evaluation come from the external engine and are represented
by fixed placeholder lines. -/
def Game.do_command (g : Game) (command : String) : Bool × List String × Game :=
  if lowerStr command = "h" || lowerStr command = "help" then
    (true, [HELP_MESSAGE], g)
  else if lowerStr command = "i" || lowerStr command = "info" then
    let checkLines := if g.board.is_check then ["     In check!"] else []
    let castleLine :=
      "     Allowed to castle: " ++
        (if g.board.has_castling_rights Color.white then "yes" else "no")
    (true, checkLines ++ [castleLine, "     Evaluation: (external)"], g)
  else if lowerStr command = "b" || lowerStr command = "board" then
    (true, ["(external board visual)"], g)
  else if lowerStr command = "q" || lowerStr command = "quit" || lowerStr command = "exit" then
    (true, [], { g with game_state := GameState.RESIGNED })
  else
    (false, [], g)

/-- One human interaction at the move prompt: either a line of input or an
interrupt during input (`KeyboardInterrupt`). -/
inductive HumanInput where
  | line (s : String)
  | interrupt
deriving DecidableEq, Repr

/-- An exception escaping a turn-producer uncaught (aborting the process).
`uncaughtSan` is a move-parsing error not covered by the `except` clause of
`do_human_move`; `engineNoneMove` is `parse_uci` applied to a missing
best-move reply; `engineBadMove` is an engine reply that fails to parse. -/
inductive PyErr where
  | uncaughtSan (command : String)
  | engineNoneMove
  | engineBadMove (uci : String)
deriving DecidableEq, Repr

/-- Translation of `Game.do_human_move` (src/main.py lines 179-199).  The result carries
the updated game, the returned value (`none` models the bare `return` of
the interrupt path, otherwise `some self.opponents_turn`), and the lines
printed.  The `except` clause on line 192 catches exactly the library's
illegal-move and invalid-move kinds, so any other parsing error escapes as
`PyErr.uncaughtSan`. -/
def Game.do_human_move (g : Game) (inp : HumanInput) :
    Except PyErr (Game × Option Bool × List String) :=
  match inp with
  | .interrupt => .ok ({ g with game_state := GameState.RESIGNED }, none, [])
  | .line command =>
    let g1 := { g with opponents_turn := false }
    match g1.board.parse_san command with
    | .ok humanMove =>
      let g2 := { g1 with board := g1.board.push humanMove, opponents_turn := true }
      let g3 := if g2.game_state ≠ GameState.RESIGNED then g2.update_game_state else g2
      .ok (g3, some g3.opponents_turn, [])
    | .error SanError.illegal | .error SanError.malformed =>
      let dc := g1.do_command command
      let outs := if dc.1 then dc.2.1 else dc.2.1 ++ ["CommandError: " ++ command]
      let g3 :=
        if dc.2.2.game_state ≠ GameState.RESIGNED then dc.2.2.update_game_state else dc.2.2
      .ok (g3, some g3.opponents_turn, outs)
    | .error SanError.ambiguous => .error (PyErr.uncaughtSan command)

/-- The external engine adapter: `get_best_move` may return a coordinate
move string or nothing (spec section 6, EngineAdapter). -/
structure Ext where
  bestMove : Position → Option String

/-- Translation of `Game.do_stockfish_move` (src/main.py lines 201-223): ask the engine for
its best move, parse it as coordinate notation against the current board
(uncaught on failure), print its algebraic form, push it, re-evaluate the
game state, and return `True`. -/
def Game.do_stockfish_move (ext : Ext) (g : Game) :
    Except PyErr (Game × Option Bool × List String) :=
  match ext.bestMove g.board.pos with
  | none => .error PyErr.engineNoneMove
  | some uci =>
    match g.board.parse_uci uci with
    | .error _ => .error (PyErr.engineBadMove uci)
    | .ok opponentMove =>
      let outs := ["    My move: " ++ g.board.san opponentMove]
      let g2 := { g with board := g.board.push opponentMove, opponents_turn := true }
      let g3 := g2.update_game_state
      .ok (g3, some true, outs)

/-! ### The orchestration loop, translated from `main` (src/main.py 231-309). -/

/-- The two turn-producers bound into `order` (src/main.py lines 264-272). -/
inductive Producer where
  | human
  | engine
deriving DecidableEq, Repr

/-- One recorded producer invocation: which producer was called and the
value of `game.game_state` at the moment of the call. -/
structure TraceEv where
  prod : Producer
  stateAtCall : GameState
deriving DecidableEq, Repr

/-- The mutable state of the orchestration loop: the game, the scripted
human input lines still pending, the trace of producer invocations (model
instrumentation), the `should_continue` flag, a pending uncaught exception,
and a `stuck` marker raised only when the model runs out of scripted input
or fuel (never by the translated code itself). -/
structure LoopSt where
  game : Game
  inputs : List HumanInput
  trace : List TraceEv
  shouldContinue : Bool
  err : Option PyErr
  stuck : Bool
deriving DecidableEq, Repr

def LoopSt.halted (st : LoopSt) : Bool := st.err.isSome || st.stuck

/-- Invoke one turn-producer (`move()` on src/main.py line 286): record the
invocation, feed the human producer its next scripted input, and either
store the producer's return value or latch an escaping exception. -/
def callProducer (ext : Ext) (p : Producer) (st : LoopSt) : LoopSt × Option Bool :=
  match p with
  | .human =>
    match st.inputs with
    | [] => ({ st with stuck := true }, none)
    | i :: rest =>
      let st1 := { st with inputs := rest,
                           trace := st.trace ++ [TraceEv.mk .human st.game.game_state] }
      match st1.game.do_human_move i with
      | .ok (g, r, _) => ({ st1 with game := g }, r)
      | .error e => ({ st1 with err := some e }, none)
  | .engine =>
    let st1 := { st with trace := st.trace ++ [TraceEv.mk .engine st.game.game_state] }
    match Game.do_stockfish_move ext st1.game with
    | .ok (g, r, _) => ({ st1 with game := g }, r)
    | .error e => ({ st1 with err := some e }, none)

/-- Python truthiness of the value returned by a turn-producer (`None` is
falsy). -/
def truthy : Option Bool → Bool
  | some true => true
  | _ => false

/-- The inner `while not is_move` loop (src/main.py lines 284-290): call the
producer; if the game state is no longer ONGOING, clear `should_continue`
and break; otherwise break when a move was made, else re-prompt. -/
def runInner (ext : Ext) (p : Producer) : Nat → LoopSt → LoopSt
  | 0, st => { st with stuck := true }
  | fuel + 1, st =>
    if st.halted then st
    else
      let pr := callProducer ext p st
      if pr.1.halted then pr.1
      else if pr.1.game.game_state ≠ GameState.ONGOING then
        { pr.1 with shouldContinue := false }
      else if truthy pr.2 then pr.1
      else runInner ext p fuel pr.1

/-- One slot of the `for move in (first_move, second_move)` loop
(src/main.py lines 279-290): skipped when `game.opponents_turn` is false,
otherwise the inner loop runs. -/
def runSlot (ext : Ext) (p : Producer) (fuel : Nat) (st : LoopSt) : LoopSt :=
  if st.halted then st
  else if !st.game.opponents_turn then st
  else runInner ext p fuel st

/-- One round of the main loop body (src/main.py lines 277-292): both slots
in order, then `game.move_counter += 1`. -/
def runRound (ext : Ext) (order : Producer × Producer) (fuel : Nat) (st : LoopSt) : LoopSt :=
  let st1 := runSlot ext order.1 fuel st
  let st2 := runSlot ext order.2 fuel st1
  if st2.halted then st2
  else { st2 with game := { st2.game with move_counter := st2.game.move_counter + 1 } }

/-- The `while should_continue` loop (src/main.py lines 276-292). -/
def runMain (ext : Ext) (order : Producer × Producer) : Nat → LoopSt → LoopSt
  | 0, st => if st.halted || !st.shouldContinue then st else { st with stuck := true }
  | fuel + 1, st =>
    if st.halted then st
    else if !st.shouldContinue then st
    else runMain ext order fuel (runRound ext order (fuel + 1) st)

/-- The loop entry state (src/main.py lines 274-275): `game.opponents_turn`
is force-set to `True` and `should_continue` to `True`. -/
def initLoopSt (g : Game) (inputs : List HumanInput) : LoopSt :=
  ⟨{ g with opponents_turn := true }, inputs, [], true, none, false⟩

/-- Side resolution (src/main.py lines 261-262): `r`/`random` is replaced,
once, before the loop, by a random draw from `("black", "white")`. -/
def resolveSide (side : String) (coin : String) : String :=
  if lowerStr side = "r" || lowerStr side = "random" then coin else side

/-- The producer order bound from the side string (src/main.py lines
264-272); `none` models the `sys.exit(1)` on an unrecognized side. -/
def sideOrder (side : String) : Option (Producer × Producer) :=
  if lowerStr side = "b" || lowerStr side = "black" then some (.engine, .human)
  else if lowerStr side = "w" || lowerStr side = "white" then some (.human, .engine)
  else none

/-- The whole `main` loop phase (src/main.py lines 261-292): resolve the
side with a single coin draw, bind the producer order, then run the loop. -/
def mainLoop (side coin : String) (ext : Ext) (g : Game) (inputs : List HumanInput)
    (fuel : Nat) : Option LoopSt :=
  match sideOrder (resolveSide side coin) with
  | none => none
  | some order => some (runMain ext order fuel (initLoopSt g inputs))

/-- The end-of-game transcript condition (src/main.py line 306): the PGN is
printed exactly when the last space-separated field of `start_positions` is
the string `"1"`. -/
def pgnPrinted (start_positions : String) : Bool :=
  (pySplit start_positions ' ').getLastD "" == "1"

/-! ### Support definitions for the verification of the claims. -/

/-- A game constructed from a board-description string, with an inert
placeholder when construction fails (the accompanying theorems also show
the constructions they use succeed). -/
def emptyPosition : Position :=
  ⟨List.replicate 64 none, .white, false, false, false, false, none, 0, 0⟩

def gameOfFenD (s : String) : Game :=
  match Game.init s with
  | .ok g => g
  | .error _ => ⟨s, Board.fromPosition emptyPosition, 0, GameState.ONGOING, "", false⟩

def exOk {ε α : Type} : Except ε α → Bool
  | .ok _ => true
  | .error _ => false

/-- A position in which white mates in one: white Re1/Kh1, black Kg8 with
pawns f7, g7, h7; `Re8#` is a back-rank mate. -/
def mateInOneFen : String := "6k1/5ppp/8/8/8/8/8/4R2K w - - 0 1"

/-- A position with white knights on b1 and f3 that can both legally reach
d2, making the input `Nd2` ambiguous. -/
def twoKnightsFen : String := "k7/8/8/8/8/5N2/8/1N2K3 w - - 0 1"

/-- The position after 1. e4 from the standard start: not the canonical
initial position, but its fullmove number is still 1. -/
def afterE4Fen : String := "rnbqkbnr/pppppppp/8/8/4P3/8/PPPP1PPP/RNBQKBNR b KQkq e3 0 1"

def mv_e2e4 : Move := ⟨12, 28, none⟩

def mv_e7e5 : Move := ⟨52, 36, none⟩

def mv_g1f3 : Move := ⟨6, 21, none⟩

def mv_Re8 : Move := ⟨4, 60, none⟩

/-- An engine adapter whose best-move query returns nothing — what the
external engine reports in a position with no legal moves. -/
def extSilent : Ext := ⟨fun _ => none⟩

/-- An engine adapter that always proposes the coordinate move e2e4. -/
def extAlwaysE4 : Ext := ⟨fun _ => some "e2e4"⟩

/-- All case variants of the resignation commands `q`, `quit` and `exit`
(i.e. the full preimage of those three words under ASCII lower-casing). -/
def quitStrings : List String :=
  ["q", "Q",
   "quit", "quiT", "quIt", "quIT", "qUit", "qUiT", "qUIt", "qUIT",
   "Quit", "QuiT", "QuIt", "QuIT", "QUit", "QUiT", "QUIt", "QUIT",
   "exit", "exiT", "exIt", "exIT", "eXit", "eXiT", "eXIt", "eXIT",
   "Exit", "ExiT", "ExIt", "ExIT", "EXit", "EXiT", "EXIt", "EXIT"]

/-- The castling-availability line printed by the info command. -/
def castleAllowedLine (b : Bool) : String :=
  "     Allowed to castle: " ++ (if b then "yes" else "no")

/-- The castling-availability lines among the info command's output. -/
def infoCastleLines (g : Game) : List String :=
  ((Game.do_command g "i").2.1).filter (fun s => strHasPre "     Allowed to castle" s)

/-- Modelled from the spec: `render(startingPosition, moveSequence)` of
TranscriptRecorder (spec section 4.5) — replay each move against a working
copy of the starting position, serializing in algebraic notation before the
move is applied, with a move-number marker before every move of the side
that moved first, space-separated.  Stated independently of the `Game`
object to compare against `Game.get_game_as_pgn`. -/
def renderFrom (p : Position) (i : Nat) : List Move → String
  | [] => ""
  | m :: rest =>
    (if i % 2 = 0 then toString (i / 2 + 1) ++ ". " else "") ++
      sanOfMove p m ++ " " ++ renderFrom (applyMove p m) (i + 1) rest

def specRender (startingPosition : String) (moveSequence : List Move) :
    Except String String :=
  (fenParse startingPosition).map (fun p => renderFrom p 0 moveSequence)

/-- Witness game for instantiating the universally quantified claims. -/
def startGame : Game := gameOfFenD START_POSITION

/-- The run refuting C1: the human (moving first) mates with Re8 from the
mate-in-one position; the engine adapter, facing a mated position, has no
best move. -/
def c1CounterRun : LoopSt :=
  runMain extSilent (Producer.human, Producer.engine) 5
    (initLoopSt (gameOfFenD mateInOneFen) [HumanInput.line "Re8"])

/-- A loop state with `should_continue` already cleared. -/
def c1StStopped : LoopSt :=
  { initLoopSt (gameOfFenD mateInOneFen) [] with shouldContinue := false }

/-- The mate-in-one game with its state already evaluated to CHECKMATE and
the turn flag up. -/
def c1TermGame : Game :=
  { gameOfFenD mateInOneFen with game_state := GameState.CHECKMATE, opponents_turn := true }

/-- A mid-round loop state whose game is already in a terminal state with
the turn flag still up. -/
def c1StTerm : LoopSt := ⟨c1TermGame, [], [], true, none, false⟩

/-- A mid-round loop state whose turn flag is down. -/
def c1StSkip : LoopSt := ⟨{ c1TermGame with opponents_turn := false }, [], [], true, none, false⟩

/-- The run refuting C2: the human enters the ambiguous `Nd2` in the
two-knights position. -/
def c2CounterRun : LoopSt :=
  runMain extSilent (Producer.human, Producer.engine) 3
    (initLoopSt (gameOfFenD twoKnightsFen) [HumanInput.line "Nd2"])

/-- The game as a quit command leaves it inside the round, before the
counter bump. -/
def quitSlotGame (g : Game) : Game :=
  { g with opponents_turn := false, game_state := GameState.RESIGNED }

/-- The loop state a quit command leaves behind when the human moves first:
RESIGNED, board untouched, one human invocation in the trace, the engine
slot skipped, the loop flag cleared, and the round's counter bump applied. -/
def quitFinalGame (g : Game) : Game :=
  { quitSlotGame g with move_counter := g.move_counter + 1 }

def quitFinal (g : Game) (rest : List HumanInput) : LoopSt :=
  ⟨quitFinalGame g, rest, [TraceEv.mk Producer.human g.game_state], false, none, false⟩

def quitSlotSt (g : Game) (rest : List HumanInput) : LoopSt :=
  ⟨quitSlotGame g, rest, [TraceEv.mk Producer.human g.game_state], false, none, false⟩

/-- The run refuting C7: the human (playing white) interrupts input at the
very first prompt; the engine adapter proposes e2e4. -/
def c7CounterRun : LoopSt :=
  runMain extAlwaysE4 (Producer.human, Producer.engine) 5
    (initLoopSt startGame [HumanInput.interrupt])

/-! ### Helper lemmas. -/

theorem update_game_state_board (g : Game) : g.update_game_state.board = g.board := by
  unfold Game.update_game_state
  split
  · rfl
  split
  · rfl
  split <;> rfl

theorem update_game_state_oppturn (g : Game) :
    g.update_game_state.opponents_turn = g.opponents_turn := by
  unfold Game.update_game_state
  split
  · rfl
  split
  · rfl
  split <;> rfl

theorem do_command_board (g : Game) (c : String) :
    ((g.do_command c).2.2).board = g.board := by
  unfold Game.do_command
  split
  · rfl
  split
  · rfl
  split
  · rfl
  split <;> rfl

theorem do_command_oppturn (g : Game) (c : String) :
    ((g.do_command c).2.2).opponents_turn = g.opponents_turn := by
  unfold Game.do_command
  split
  · rfl
  split
  · rfl
  split
  · rfl
  split <;> rfl

/-- The transcript replay loop agrees with the spec's indexed rendering:
the source's 1-based move number `i + 1` and running move count `(i+3)/2`
correspond to the spec's 0-based index `i`. -/
theorem pgnLoop_renderFrom (ms : List Move) : ∀ (tb : Board) (i : Nat),
    pgnLoop tb ((i + 3) / 2) (i + 1) ms = renderFrom tb.pos i ms := by
  induction ms with
  | nil => intro tb i; rfl
  | cons m rest ih =>
    intro tb i
    simp only [pgnLoop, renderFrom]
    by_cases hp : i % 2 = 0
    · have h1 : (i + 1) % 2 = 1 := by omega
      have h2 : (i + 3) / 2 = i / 2 + 1 := by omega
      have h3 : i / 2 + 1 + 1 = (i + 1 + 3) / 2 := by omega
      have h4 := ih (tb.push m) (i + 1)
      simp only [h1, hp, h2, eq_self_iff_true, if_true]
      rw [h3, h4]
      rfl
    · have h1 : (i + 1) % 2 = 0 := by omega
      have h2 : (i + 3) / 2 = (i + 1 + 3) / 2 := by omega
      have h4 := ih (tb.push m) (i + 1)
      simp only [h1, if_neg hp, if_neg (by omega : ¬ (0 : Nat) = 1)]
      rw [h2, h4]
      rfl

/-! ### Claim C3 — the game-state evaluator. -/

/-- Claim C3: after every applied move `update_game_state` yields exactly one of
ONGOING, CHECKMATE, STALEMATE or REPETITION and never RESIGNED: CHECKMATE
exactly when the side to move has no legal move and is in check, STALEMATE
exactly when there is no legal move and no check, REPETITION exactly when
moves remain but the position's signature has occurred at least three times
in the game record, and ONGOING otherwise; checkmate/stalemate take priority
over repetition and the outcomes are mutually exclusive. -/
theorem claim_C3_evaluator (g : Game) :
    (g.update_game_state.game_state ≠ GameState.RESIGNED) ∧
    (g.update_game_state.game_state = GameState.CHECKMATE ↔
      colorInCheck g.board.pos g.board.pos.turn = true ∧
        noLegalMoves g.board.pos = true) ∧
    (g.update_game_state.game_state = GameState.STALEMATE ↔
      colorInCheck g.board.pos g.board.pos.turn = false ∧
        noLegalMoves g.board.pos = true) ∧
    (g.update_game_state.game_state = GameState.REPETITION ↔
      noLegalMoves g.board.pos = false ∧
        3 ≤ g.board.sigs.count (sigOf g.board.pos)) ∧
    (g.update_game_state.game_state = GameState.ONGOING ↔
      noLegalMoves g.board.pos = false ∧
        g.board.sigs.count (sigOf g.board.pos) < 3) := by
  unfold Game.update_game_state Board.is_checkmate Board.is_stalemate Board.is_repetition
    posIsCheckmate posIsStalemate
  cases hc : colorInCheck g.board.pos g.board.pos.turn <;>
    cases hn : noLegalMoves g.board.pos <;>
      by_cases hr : 3 ≤ g.board.sigs.count (sigOf g.board.pos) <;>
        simp [hc, hn, hr] <;> omega

/-! ### Claim C4 — the concrete transcript example. -/

/-- Claim C4: applying the moves e2e4, e7e5, g1f3 to the standard start position
and rendering the transcript yields exactly the string `1. e4 e5 2. Nf3 `:
each move is serialized in algebraic notation against the position before
it is applied, and a move-number marker precedes every white (first-side)
move. -/
theorem claim_C4_transcript_example :
    (Game.init START_POSITION).map (fun g =>
        Game.get_game_as_pgn
          { g with board := ((g.board.push mv_e2e4).push mv_e7e5).push mv_g1f3 }) =
      .ok (.ok "1. e4 e5 2. Nf3 ") := by
  rfl

/-! ### Claim C5 — when the end-of-game transcript is printed. -/

/-- Claim C5 counterexample: the position after 1. e4 is a valid, non-canonical
starting position, yet the end-of-game transcript condition holds for it,
because `main` tests only whether the last space-separated field of the
starting string is `"1"` (src/main.py line 306). -/
theorem claim_C5_counterexample :
    pgnPrinted afterE4Fen = true ∧ afterE4Fen ≠ START_POSITION ∧
      exOk (Board.ofFen afterE4Fen) = true := by
  refine ⟨rfl, by decide, rfl⟩

/-- Claim C5 (amended): at end of game the transcript is printed exactly when the
last space-separated field of the starting position string — its fullmove
number — is `"1"`; this holds for the canonical initial position, but also
for any other starting position whose fullmove number is 1. -/
theorem claim_C5_amended :
    pgnPrinted START_POSITION = true ∧
    ∀ s : String, pgnPrinted s = true ↔ (pySplit s ' ').getLastD "" = "1" := by
  refine ⟨rfl, fun s => ?_⟩
  unfold pgnPrinted
  exact beq_iff_eq

/-! ### Claim C8 — transcript rendering is pure. -/

/-- Claim C8: transcript rendering is a pure function of the starting position
string and the recorded move sequence: it coincides with the spec's
`render(startingPosition, moveSequence)` on exactly those two inputs, and
replacing every other component of the game (current position, signature
history, move counter, game state, latest command, turn flag) leaves the
rendered string unchanged; in the model, invoking it leaves the game itself
untouched by construction. -/
theorem claim_C8_transcript_pure (g : Game) (p2 : Position) (sg : List Sig)
    (mc : Nat) (gs : GameState) (lc : String) (ot : Bool) :
    Game.get_game_as_pgn ⟨g.start_positions, ⟨p2, g.board.moveStack, sg⟩, mc, gs, lc, ot⟩ =
      Game.get_game_as_pgn g ∧
    Game.get_game_as_pgn g = specRender g.start_positions g.board.moveStack := by
  constructor
  · rfl
  · unfold Game.get_game_as_pgn specRender Board.ofFen
    cases h : fenParse g.start_positions with
    | error e => simp [h, Except.map, Except.bind]
    | ok p =>
      simp only [h, Except.map, Except.bind, bind, pure]
      have h0 := pgnLoop_renderFrom g.board.moveStack (Board.fromPosition p) 0
      exact congrArg Except.ok h0

/-! ### Claim C9 — the info command's castling line. -/

theorem do_command_info (g : Game) :
    g.do_command "i" =
      (true,
        (if g.board.is_check then ["     In check!"] else []) ++
          [castleAllowedLine (g.board.has_castling_rights Color.white),
           "     Evaluation: (external)"],
        g) := by
  rfl

/-- Claim C9: the info command reports castling availability computed for white
only — its output contains exactly one castling line, reading `yes` exactly
when white retains a castling right, and the line is unchanged under any
modification of the side to move or of black's castling rights. -/
theorem claim_C9_info_castling_white_only (g : Game) (t : Color) (bk bq : Bool) :
    infoCastleLines g =
      [castleAllowedLine (g.board.pos.castleWK || g.board.pos.castleWQ)] ∧
    infoCastleLines { g with board := { g.board with pos :=
        { g.board.pos with turn := t, castleBK := bk, castleBQ := bq } } } =
      infoCastleLines g := by
  have key : ∀ g2 : Game, infoCastleLines g2 =
      [castleAllowedLine (g2.board.pos.castleWK || g2.board.pos.castleWQ)] := by
    intro g2
    unfold infoCastleLines
    rw [do_command_info]
    cases hchk : g2.board.is_check <;>
      cases hr : g2.board.pos.castleWK <;>
        cases hq : g2.board.pos.castleWQ <;>
          simp_all [Board.has_castling_rights, castleAllowedLine] <;> rfl
  refine ⟨key g, ?_⟩
  rw [key g, key]

/-! ### Claim C10 — constructing a game from the empty string. -/

/-- Claim C10: `Game(start_pos="")` fails rather than falling back to the
standard starting position: the fallback covers only the stored
`start_positions` field, while the board is built from the raw empty string
(which is not a parsable board description) and the move counter from
`int("".split(" ")[-1])` (which is not a parsable integer); the fallback
string itself would have parsed. -/
theorem claim_C10_empty_start :
    exOk (Game.init "") = false ∧
    exOk (Board.ofFen "") = false ∧
    exOk (pyIntOfString ((pySplit "" ' ').getLastD "")) = false ∧
    exOk (Game.init START_POSITION) = true := by
  exact ⟨rfl, rfl, rfl, rfl⟩

/-! ### Trace lemmas about the orchestration loop. -/

theorem callProducer_trace (ext : Ext) (p : Producer) (st : LoopSt) :
    ∃ t, ((callProducer ext p st).1).trace = st.trace ++ t := by
  cases p with
  | human =>
    cases hi : st.inputs with
    | nil => exact ⟨[], by simp [callProducer, hi]⟩
    | cons i rest =>
      cases h : Game.do_human_move st.game i with
      | ok v =>
        obtain ⟨g, r, outs⟩ := v
        exact ⟨[TraceEv.mk .human st.game.game_state], by simp [callProducer, hi, h]⟩
      | error e =>
        exact ⟨[TraceEv.mk .human st.game.game_state], by simp [callProducer, hi, h]⟩
  | engine =>
    cases h : Game.do_stockfish_move ext st.game with
    | ok v =>
      obtain ⟨g, r, outs⟩ := v
      exact ⟨[TraceEv.mk .engine st.game.game_state], by simp [callProducer, h]⟩
    | error e =>
      exact ⟨[TraceEv.mk .engine st.game.game_state], by simp [callProducer, h]⟩

theorem callProducer_trace_cons (ext : Ext) (p : Producer) (st : LoopSt)
    (hin : p = .engine ∨ st.inputs ≠ []) :
    ((callProducer ext p st).1).trace =
      st.trace ++ [TraceEv.mk p st.game.game_state] := by
  cases p with
  | human =>
    cases hi : st.inputs with
    | nil =>
      rcases hin with h | h
      · exact absurd h (by simp)
      · exact absurd hi h
    | cons i rest =>
      cases h : Game.do_human_move st.game i with
      | ok v =>
        obtain ⟨g, r, outs⟩ := v
        simp [callProducer, hi, h]
      | error e => simp [callProducer, hi, h]
  | engine =>
    cases h : Game.do_stockfish_move ext st.game with
    | ok v =>
      obtain ⟨g, r, outs⟩ := v
      simp [callProducer, h]
    | error e => simp [callProducer, h]

theorem runInner_trace (ext : Ext) (p : Producer) :
    ∀ (fuel : Nat) (st : LoopSt),
      ∃ t, (runInner ext p fuel st).trace = st.trace ++ t := by
  intro fuel
  induction fuel with
  | zero => intro st; exact ⟨[], by simp [runInner]⟩
  | succ n ih =>
    intro st
    simp only [runInner]
    by_cases hh : st.halted = true
    · rw [if_pos hh]
      exact ⟨[], by simp⟩
    · rw [if_neg hh]
      obtain ⟨t1, ht1⟩ := callProducer_trace ext p st
      by_cases h1 : (callProducer ext p st).1.halted = true
      · rw [if_pos h1]
        exact ⟨t1, ht1⟩
      · rw [if_neg h1]
        by_cases h2 : (callProducer ext p st).1.game.game_state ≠ GameState.ONGOING
        · rw [if_pos h2]
          exact ⟨t1, ht1⟩
        · rw [if_neg h2]
          by_cases h3 : truthy (callProducer ext p st).2 = true
          · rw [if_pos h3]
            exact ⟨t1, ht1⟩
          · rw [if_neg h3]
            obtain ⟨t2, ht2⟩ := ih (callProducer ext p st).1
            exact ⟨t1 ++ t2, by rw [ht2, ht1, List.append_assoc]⟩

theorem runSlot_trace (ext : Ext) (p : Producer) (fuel : Nat) (st : LoopSt) :
    ∃ t, (runSlot ext p fuel st).trace = st.trace ++ t := by
  unfold runSlot
  by_cases hh : st.halted = true
  · rw [if_pos hh]
    exact ⟨[], by simp⟩
  · rw [if_neg hh]
    by_cases ho : (!st.game.opponents_turn) = true
    · rw [if_pos ho]
      exact ⟨[], by simp⟩
    · rw [if_neg ho]
      exact runInner_trace ext p fuel st

theorem runRound_trace (ext : Ext) (order : Producer × Producer) (fuel : Nat)
    (st : LoopSt) : ∃ t, (runRound ext order fuel st).trace = st.trace ++ t := by
  simp only [runRound]
  obtain ⟨t1, h1⟩ := runSlot_trace ext order.1 fuel st
  obtain ⟨t2, h2⟩ := runSlot_trace ext order.2 fuel (runSlot ext order.1 fuel st)
  by_cases hh : (runSlot ext order.2 fuel (runSlot ext order.1 fuel st)).halted = true
  · rw [if_pos hh]
    exact ⟨t1 ++ t2, by rw [h2, h1, List.append_assoc]⟩
  · rw [if_neg hh]
    exact ⟨t1 ++ t2, by simp only; rw [h2, h1, List.append_assoc]⟩

theorem runMain_trace (ext : Ext) (order : Producer × Producer) :
    ∀ (fuel : Nat) (st : LoopSt),
      ∃ t, (runMain ext order fuel st).trace = st.trace ++ t := by
  intro fuel
  induction fuel with
  | zero =>
    intro st
    simp only [runMain]
    by_cases hh : (st.halted || !st.shouldContinue) = true
    · rw [if_pos hh]
      exact ⟨[], by simp⟩
    · rw [if_neg hh]
      exact ⟨[], by simp⟩
  | succ n ih =>
    intro st
    rw [runMain]
    by_cases hh : st.halted = true
    · rw [if_pos hh]
      exact ⟨[], by simp⟩
    · rw [if_neg hh]
      by_cases hs : (!st.shouldContinue) = true
      · rw [if_pos hs]
        exact ⟨[], by simp⟩
      · rw [if_neg hs]
        obtain ⟨t1, h1⟩ := runRound_trace ext order (n + 1) st
        obtain ⟨t2, h2⟩ := ih (runRound ext order (n + 1) st)
        exact ⟨t1 ++ t2, by rw [h2, h1, List.append_assoc]⟩

/-- Once `should_continue` is cleared the `while` loop performs no further
round: `runMain` is the identity. -/
theorem runMain_stop (ext : Ext) (order : Producer × Producer) (fuel : Nat)
    (st : LoopSt) (hs : st.shouldContinue = false) :
    runMain ext order fuel st = st := by
  cases fuel with
  | zero => simp [runMain, hs]
  | succ n =>
    rw [runMain]
    by_cases hh : st.halted = true
    · rw [if_pos hh]
    · rw [if_neg hh, if_pos (by simp [hs])]

/-- A slot whose turn flag is down is skipped outright. -/
theorem runSlot_skip (ext : Ext) (p : Producer) (fuel : Nat) (st : LoopSt)
    (hh : st.halted = false) (ho : st.game.opponents_turn = false) :
    runSlot ext p fuel st = st := by
  unfold runSlot
  rw [if_neg (by simp [hh]), if_pos (by simp [ho])]

/-- A slot whose turn flag is up always invokes its producer (given scripted
input for the human): the trace is extended, first with the invocation of
`p` at the current game state. -/
theorem runInner_invoked (ext : Ext) (p : Producer) (fuel : Nat) (st : LoopSt)
    (hh : st.halted = false) (hin : p = .engine ∨ st.inputs ≠ []) :
    ∃ t, (runInner ext p (fuel + 1) st).trace =
      st.trace ++ TraceEv.mk p st.game.game_state :: t := by
  simp only [runInner]
  rw [if_neg (by simp [hh])]
  have hev := callProducer_trace_cons ext p st hin
  by_cases h1 : (callProducer ext p st).1.halted = true
  · rw [if_pos h1]
    exact ⟨[], by rw [hev]⟩
  · rw [if_neg h1]
    by_cases h2 : (callProducer ext p st).1.game.game_state ≠ GameState.ONGOING
    · rw [if_pos h2]
      exact ⟨[], by simp only; rw [hev]⟩
    · rw [if_neg h2]
      by_cases h3 : truthy (callProducer ext p st).2 = true
      · rw [if_pos h3]
        exact ⟨[], by rw [hev]⟩
      · rw [if_neg h3]
        obtain ⟨t2, ht2⟩ := runInner_trace ext p fuel (callProducer ext p st).1
        refine ⟨t2, ?_⟩
        rw [ht2, hev, List.append_assoc]
        rfl

theorem runSlot_invoked (ext : Ext) (p : Producer) (fuel : Nat) (st : LoopSt)
    (hh : st.halted = false) (ho : st.game.opponents_turn = true)
    (hin : p = .engine ∨ st.inputs ≠ []) :
    ∃ t, (runSlot ext p (fuel + 1) st).trace =
      st.trace ++ TraceEv.mk p st.game.game_state :: t := by
  unfold runSlot
  rw [if_neg (by simp [hh]), if_neg (by simp [ho])]
  exact runInner_invoked ext p fuel st hh hin

/-- The bump of `move_counter` at the end of a round does not touch the
trace: a round's trace is the trace after its two slots. -/
theorem runRound_trace_eq (ext : Ext) (p1 p2 : Producer) (fuel : Nat)
    (st : LoopSt) :
    (runRound ext (p1, p2) fuel st).trace =
      (runSlot ext p2 fuel (runSlot ext p1 fuel st)).trace := by
  simp only [runRound]
  split <;> rfl

/-! ### Claim C1 — mid-round termination of the orchestration loop. -/

/-- Claim C1 counterexample: after the human's applied move is evaluated to
CHECKMATE, the opposing producer slot is NOT skipped — the engine producer
is invoked with the game already in the CHECKMATE state (second trace
entry), and that invocation aborts on the engine's missing best move.  The
claim says no further turn-producer is invoked after a non-ONGOING
evaluation. -/
theorem claim_C1_counterexample :
    exOk (Game.init mateInOneFen) = true ∧
    c1CounterRun.trace =
      [TraceEv.mk Producer.human GameState.ONGOING,
       TraceEv.mk Producer.engine GameState.CHECKMATE] ∧
    c1CounterRun.shouldContinue = false ∧
    c1CounterRun.err = some PyErr.engineNoneMove := by
  exact ⟨rfl, rfl, rfl, rfl⟩

/-- Claim C1 (amended): a non-ONGOING evaluation clears `should_continue`, so no
further round of the orchestration loop begins; but the machine does not
terminate mid-round — the opposing producer slot of the current round is
still invoked whenever `opponents_turn` is true at that slot, and is
skipped only when `opponents_turn` is false. -/
theorem claim_C1_amended :
    (∀ (ext : Ext) (order : Producer × Producer) (fuel : Nat) (st : LoopSt),
      st.shouldContinue = false → runMain ext order fuel st = st) ∧
    (∀ (ext : Ext) (p : Producer) (fuel : Nat) (st : LoopSt),
      st.halted = false → st.game.opponents_turn = true →
      st.game.game_state ≠ GameState.ONGOING →
      (p = Producer.engine ∨ st.inputs ≠ []) →
      ∃ t, (runSlot ext p (fuel + 1) st).trace =
        st.trace ++ TraceEv.mk p st.game.game_state :: t) ∧
    (∀ (ext : Ext) (p : Producer) (fuel : Nat) (st : LoopSt),
      st.halted = false → st.game.opponents_turn = false →
      runSlot ext p fuel st = st) := by
  refine ⟨fun ext order fuel st hs => runMain_stop ext order fuel st hs,
    fun ext p fuel st hh ho _ hin => runSlot_invoked ext p fuel st hh ho hin,
    fun ext p fuel st hh ho => runSlot_skip ext p fuel st hh ho⟩

theorem claim_C1_amended_witness :
    runMain extSilent (Producer.human, Producer.engine) 3 c1StStopped = c1StStopped ∧
    (∃ t, (runSlot extSilent Producer.engine 3 c1StTerm).trace =
      c1StTerm.trace ++ TraceEv.mk Producer.engine c1StTerm.game.game_state :: t) ∧
    runSlot extSilent Producer.engine 3 c1StSkip = c1StSkip :=
  ⟨claim_C1_amended.1 extSilent (Producer.human, Producer.engine) 3 c1StStopped rfl,
   claim_C1_amended.2.1 extSilent Producer.engine 2 c1StTerm rfl rfl (by decide) (Or.inl rfl),
   claim_C1_amended.2.2 extSilent Producer.engine 3 c1StSkip rfl rfl⟩

/-! ### Claim C2 — error handling at the human move prompt. -/

/-- Claim C2 counterexample: in the two-knights position the well-formed input
`Nd2` matches two legal moves; its ambiguous-move parsing error is not
among the kinds caught by `do_human_move`'s `except` clause, so it
propagates out of the human-turn invocation and aborts the run instead of
re-prompting. -/
theorem claim_C2_counterexample :
    exOk (Game.init twoKnightsFen) = true ∧
    parseSan (gameOfFenD twoKnightsFen).board.pos "Nd2" = .error SanError.ambiguous ∧
    Game.do_human_move (gameOfFenD twoKnightsFen) (HumanInput.line "Nd2") =
      .error (PyErr.uncaughtSan "Nd2") ∧
    c2CounterRun.err = some (PyErr.uncaughtSan "Nd2") := by
  exact ⟨rfl, rfl, rfl, rfl⟩

/-- Claim C2 (amended): illegal-move and invalid-notation parsing errors are
caught at the orchestration boundary: the human-turn invocation returns
normally with a falsy result and an unchanged board, and the inner loop
then re-invokes the same producer; but the ambiguous-move error kind is not
caught — it propagates out of the human-turn invocation uncaught. -/
theorem claim_C2_amended :
    (∀ (g : Game) (s : String) (e : SanError),
      parseSan g.board.pos s = .error e → e ≠ SanError.ambiguous →
      ∃ r : Game × Option Bool × List String,
        g.do_human_move (HumanInput.line s) = .ok r ∧
          r.2.1 = some false ∧ r.1.board = g.board) ∧
    (∀ (ext : Ext) (p : Producer) (fuel : Nat) (st : LoopSt),
      st.halted = false → (callProducer ext p st).1.halted = false →
      (callProducer ext p st).1.game.game_state = GameState.ONGOING →
      truthy (callProducer ext p st).2 = false →
      runInner ext p (fuel + 1) st = runInner ext p fuel (callProducer ext p st).1) ∧
    (∀ (g : Game) (s : String),
      parseSan g.board.pos s = .error SanError.ambiguous →
      g.do_human_move (HumanInput.line s) = .error (PyErr.uncaughtSan s)) := by
  refine ⟨?_, ?_, ?_⟩
  · intro g s e hpe hne
    have hopp : ((Game.do_command { g with opponents_turn := false } s).2.2).opponents_turn =
        false := by
      simpa using do_command_oppturn { g with opponents_turn := false } s
    have hboard : ((Game.do_command { g with opponents_turn := false } s).2.2).board =
        g.board := by
      simpa using do_command_board { g with opponents_turn := false } s
    cases e with
    | ambiguous => exact absurd rfl hne
    | illegal =>
      simp only [Game.do_human_move, Board.parse_san, hpe]
      refine ⟨_, rfl, ?_, ?_⟩
      · show some _ = some false
        split
        · rw [update_game_state_oppturn, hopp]
        · rw [hopp]
      · show Game.board _ = g.board
        split
        · rw [update_game_state_board, hboard]
        · rw [hboard]
    | malformed =>
      simp only [Game.do_human_move, Board.parse_san, hpe]
      refine ⟨_, rfl, ?_, ?_⟩
      · show some _ = some false
        split
        · rw [update_game_state_oppturn, hopp]
        · rw [hopp]
      · show Game.board _ = g.board
        split
        · rw [update_game_state_board, hboard]
        · rw [hboard]
  · intro ext p fuel st hh h1 h2 h3
    simp only [runInner]
    rw [if_neg (by simp [hh]), if_neg (by simp [h1]),
      if_neg (by simp [h2]), if_neg (by simp [h3])]
  · intro g s hpe
    simp only [Game.do_human_move, Board.parse_san, hpe]

theorem claim_C2_amended_witness :
    (∃ r : Game × Option Bool × List String,
      startGame.do_human_move (HumanInput.line "xyz") = .ok r ∧
        r.2.1 = some false ∧ r.1.board = startGame.board) ∧
    runInner extSilent Producer.human 3 (initLoopSt startGame [HumanInput.line "h"]) =
      runInner extSilent Producer.human 2
        (callProducer extSilent Producer.human (initLoopSt startGame [HumanInput.line "h"])).1 ∧
    Game.do_human_move (gameOfFenD twoKnightsFen) (HumanInput.line "Nd2") =
      .error (PyErr.uncaughtSan "Nd2") :=
  ⟨claim_C2_amended.1 startGame "xyz" SanError.malformed rfl (by decide),
   claim_C2_amended.2.1 extSilent Producer.human 2
     (initLoopSt startGame [HumanInput.line "h"]) rfl rfl rfl rfl,
   claim_C2_amended.2.2 (gameOfFenD twoKnightsFen) "Nd2" rfl⟩

/-! ### Claim C7 — resignation by quit command or interrupt. -/

/-- Every case variant of `q`, `quit`, `exit` fails SAN parsing with the
caught invalid-notation kind, is dispatched as a command, and resigns: the
human-turn invocation returns the game with `game_state = RESIGNED`, an
unchanged board, and a falsy result. -/
theorem do_human_move_quit (g : Game) (s : String) (hs : s ∈ quitStrings) :
    g.do_human_move (HumanInput.line s) =
      .ok ({ g with opponents_turn := false, game_state := GameState.RESIGNED },
        some false, []) := by
  fin_cases hs <;> rfl

theorem runRound_quit (ext : Ext) (g : Game) (s : String) (rest : List HumanInput)
    (fuel : Nat) (hs : s ∈ quitStrings) :
    runRound ext (Producer.human, Producer.engine) (fuel + 1)
        (initLoopSt g (HumanInput.line s :: rest)) = quitFinal g rest := by
  have hq := do_human_move_quit { g with opponents_turn := true } s hs
  have h1 : runSlot ext Producer.human (fuel + 1) (initLoopSt g (HumanInput.line s :: rest)) =
      quitSlotSt g rest := by
    unfold runSlot
    rw [if_neg (by simp [initLoopSt, LoopSt.halted]), if_neg (by simp [initLoopSt])]
    simp only [runInner]
    rw [if_neg (by simp [initLoopSt, LoopSt.halted])]
    simp only [callProducer, initLoopSt, hq]
    simp [LoopSt.halted, quitSlotSt, quitSlotGame]
  simp only [runRound]
  rw [h1, runSlot_skip ext Producer.engine (fuel + 1) (quitSlotSt g rest) rfl rfl]
  rw [if_neg (by simp [quitSlotSt, LoopSt.halted])]
  simp [quitSlotSt, quitSlotGame, quitFinal, quitFinalGame]

/-- Claim C7 (amended): entering any case variant of q/quit/exit sets the state
to RESIGNED regardless of whose turn it is, without applying a move or
touching the board, the engine slot of the round is skipped and the loop
terminates with RESIGNED; an interrupt likewise sets RESIGNED immediately
without touching the board, but it does not clear the turn flag, so when
the engine's slot follows in the same round the engine still moves and the
subsequent evaluation overwrites RESIGNED. -/
theorem claim_C7_amended :
    (∀ (g : Game) (s : String), s ∈ quitStrings →
      g.do_human_move (HumanInput.line s) =
        .ok ({ g with opponents_turn := false, game_state := GameState.RESIGNED },
          some false, [])) ∧
    (∀ s : String, s ∈ quitStrings →
      lowerStr s = "q" ∨ lowerStr s = "quit" ∨ lowerStr s = "exit") ∧
    (∀ g : Game, g.do_human_move HumanInput.interrupt =
      .ok ({ g with game_state := GameState.RESIGNED }, none, [])) ∧
    (∀ (ext : Ext) (g : Game) (s : String) (rest : List HumanInput) (fuel : Nat),
      s ∈ quitStrings →
      runMain ext (Producer.human, Producer.engine) (fuel + 1)
          (initLoopSt g (HumanInput.line s :: rest)) = quitFinal g rest) := by
  refine ⟨fun g s hs => do_human_move_quit g s hs, ?_, fun g => rfl, ?_⟩
  · intro s hs
    fin_cases hs <;> decide
  · intro ext g s rest fuel hs
    rw [runMain]
    rw [if_neg (by simp [initLoopSt, LoopSt.halted]), if_neg (by simp [initLoopSt]),
      runRound_quit ext g s rest fuel hs,
      runMain_stop ext (Producer.human, Producer.engine) fuel (quitFinal g rest) rfl]

/-- Claim C7 counterexample: the interrupt does set RESIGNED (the engine slot is
entered with the state already RESIGNED, second trace entry), but because
`opponents_turn` was left true, the engine slot of the same round still
runs: a move is pushed onto the board and `update_game_state` overwrites
the state, so the game ends in ONGOING, not RESIGNED.  The claim says the
game terminates with RESIGNED and with no move applied. -/
theorem claim_C7_counterexample :
    c7CounterRun.trace =
      [TraceEv.mk Producer.human GameState.ONGOING,
       TraceEv.mk Producer.engine GameState.RESIGNED] ∧
    c7CounterRun.game.game_state = GameState.ONGOING ∧
    c7CounterRun.game.board.moveStack = [mv_e2e4] ∧
    c7CounterRun.err = none ∧ c7CounterRun.stuck = false := by
  exact ⟨rfl, rfl, rfl, rfl, rfl⟩

theorem claim_C7_amended_witness :
    startGame.do_human_move (HumanInput.line "qUiT") =
      .ok (quitSlotGame startGame, some false, []) ∧
    (lowerStr "eXIT" = "q" ∨ lowerStr "eXIT" = "quit" ∨ lowerStr "eXIT" = "exit") ∧
    startGame.do_human_move HumanInput.interrupt =
      .ok ({ startGame with game_state := GameState.RESIGNED }, none, []) ∧
    runMain extSilent (Producer.human, Producer.engine) 2
        (initLoopSt startGame [HumanInput.line "Q"]) = quitFinal startGame [] :=
  ⟨claim_C7_amended.1 startGame "qUiT" (by decide),
   claim_C7_amended.2.1 "eXIT" (by decide),
   claim_C7_amended.2.2.1 startGame,
   claim_C7_amended.2.2.2 extSilent startGame "Q" [] 1 (by decide)⟩

/-! ### Claim C6 — side binding and producer order. -/

/-- Claim C6: binding human-side = black makes the engine producer the first
invocation of the loop; human-side = white makes the human producer first;
the b/black and w/white side strings (case-insensitively) bind exactly
those orders; a random side is resolved by a single coin draw before the
loop — the run is the one obtained from the drawn side, and for a
non-random side the coin has no influence at all. -/
theorem claim_C6_side_binding :
    (∀ (ext : Ext) (g : Game) (inputs : List HumanInput) (fuel : Nat),
      (runMain ext (Producer.engine, Producer.human) (fuel + 1)
          (initLoopSt g inputs)).trace.head? =
        some (TraceEv.mk Producer.engine g.game_state)) ∧
    (∀ (ext : Ext) (g : Game) (i : HumanInput) (rest : List HumanInput) (fuel : Nat),
      (runMain ext (Producer.human, Producer.engine) (fuel + 1)
          (initLoopSt g (i :: rest))).trace.head? =
        some (TraceEv.mk Producer.human g.game_state)) ∧
    (∀ side : String, (lowerStr side = "b" ∨ lowerStr side = "black") →
      sideOrder side = some (Producer.engine, Producer.human)) ∧
    (∀ side : String, (lowerStr side = "w" ∨ lowerStr side = "white") →
      sideOrder side = some (Producer.human, Producer.engine)) ∧
    (∀ (side coin : String) (ext : Ext) (g : Game) (inputs : List HumanInput) (fuel : Nat),
      (lowerStr side = "r" ∨ lowerStr side = "random") →
      mainLoop side coin ext g inputs fuel = mainLoop coin coin ext g inputs fuel) ∧
    (∀ (side coin1 coin2 : String) (ext : Ext) (g : Game) (inputs : List HumanInput)
        (fuel : Nat), ¬(lowerStr side = "r" ∨ lowerStr side = "random") →
      mainLoop side coin1 ext g inputs fuel = mainLoop side coin2 ext g inputs fuel) := by
  refine ⟨?_, ?_, ?_, ?_, ?_, ?_⟩
  · intro ext g inputs fuel
    rw [runMain]
    rw [if_neg (by simp [initLoopSt, LoopSt.halted]), if_neg (by simp [initLoopSt])]
    obtain ⟨t1, h1⟩ := runSlot_invoked ext Producer.engine fuel (initLoopSt g inputs)
      rfl rfl (Or.inl rfl)
    obtain ⟨t2, h2⟩ := runSlot_trace ext Producer.human (fuel + 1)
      (runSlot ext Producer.engine (fuel + 1) (initLoopSt g inputs))
    obtain ⟨t3, h3⟩ := runMain_trace ext (Producer.engine, Producer.human) fuel
      (runRound ext (Producer.engine, Producer.human) (fuel + 1) (initLoopSt g inputs))
    rw [h3, runRound_trace_eq, h2, h1]
    simp [initLoopSt]
  · intro ext g i rest fuel
    rw [runMain]
    rw [if_neg (by simp [initLoopSt, LoopSt.halted]), if_neg (by simp [initLoopSt])]
    obtain ⟨t1, h1⟩ := runSlot_invoked ext Producer.human fuel (initLoopSt g (i :: rest))
      rfl rfl (Or.inr (by simp [initLoopSt]))
    obtain ⟨t2, h2⟩ := runSlot_trace ext Producer.engine (fuel + 1)
      (runSlot ext Producer.human (fuel + 1) (initLoopSt g (i :: rest)))
    obtain ⟨t3, h3⟩ := runMain_trace ext (Producer.human, Producer.engine) fuel
      (runRound ext (Producer.human, Producer.engine) (fuel + 1) (initLoopSt g (i :: rest)))
    rw [h3, runRound_trace_eq, h2, h1]
    simp [initLoopSt]
  · intro side hb
    rcases hb with h | h <;> simp [sideOrder, h]
  · intro side hw
    have hnb : ¬(lowerStr side = "b" || lowerStr side = "black") = true := by
      rcases hw with h | h <;> simp [h]
    rcases hw with h | h <;> simp [sideOrder, hnb, h]
  · intro side coin ext g inputs fuel hr
    have hc : (lowerStr side = "r" || lowerStr side = "random") = true := by
      rcases hr with h | h <;> simp [h]
    simp only [mainLoop, resolveSide, hc, if_true, ite_self]
  · intro side coin1 coin2 ext g inputs fuel hnr
    have hc : ¬(lowerStr side = "r" || lowerStr side = "random") = true := by
      simpa using hnr
    simp only [mainLoop, resolveSide, hc, if_false]
    simp

theorem claim_C6_side_binding_witness :
    sideOrder "B" = some (Producer.engine, Producer.human) ∧
    sideOrder "White" = some (Producer.human, Producer.engine) ∧
    mainLoop "R" "black" extSilent startGame [] 1 =
      mainLoop "black" "black" extSilent startGame [] 1 ∧
    mainLoop "w" "black" extSilent startGame [] 1 =
      mainLoop "w" "white" extSilent startGame [] 1 :=
  ⟨claim_C6_side_binding.2.2.1 "B" (Or.inl (by decide)),
   claim_C6_side_binding.2.2.2.1 "White" (Or.inr (by decide)),
   claim_C6_side_binding.2.2.2.2.1 "R" "black" extSilent startGame [] 1 (Or.inl (by decide)),
   claim_C6_side_binding.2.2.2.2.2 "w" "black" "white" extSilent startGame [] 1 (by decide)⟩

end BlindChess
